import Mathlib

/-!
Verification of the terminal selection tracker
(src/cascadia/TerminalCore/TerminalSelection.cpp).

The C++ code is shallowly embedded below. SHORT (int16) values are
modelled as Int together with explicit range checks mirroring the
intsafe ShortAdd/ShortSub helpers and gsl narrowing; both kinds of
range failure surface as the single ArithmeticOverflow error kind of
the design (fallible code returns Except). The text buffer and the
viewport are external collaborators: the parts of their interface this
code consumes are modelled as structure fields, and where their code is
not part of this repository the behaviour is modelled from the spec
(marked in the doc comments).
-/

/-- Inclusive lower bound of the SHORT (int16) range. -/
def SHORT_MIN : Int := -32768

/-- Inclusive upper bound of the SHORT (int16) range. -/
def SHORT_MAX : Int := 32767

/-- The value fits in a SHORT. -/
def inShortRange (n : Int) : Prop := SHORT_MIN ≤ n ∧ n ≤ SHORT_MAX

instance (n : Int) : Decidable (inShortRange n) := by
  unfold inShortRange; infer_instance

/-- intsafe ShortAdd: checked 16-bit addition, fails on overflow
instead of wrapping. -/
def shortAdd (a b : Int) : Option Int :=
  if inShortRange (a + b) then some (a + b) else none

/-- intsafe ShortSub: checked 16-bit subtraction, fails on overflow
instead of wrapping. -/
def shortSub (a b : Int) : Option Int :=
  if inShortRange (a - b) then some (a - b) else none

/-- gsl narrow to SHORT: fails when the value does not fit. -/
def narrowShort (n : Int) : Option Int :=
  if inShortRange n then some n else none

/-- A buffer / viewport coordinate (COORD): column X and row Y. -/
structure COORD where
  X : Int
  Y : Int
deriving DecidableEq, Repr

/-- One selected row rectangle (SMALL_RECT with Top = Bottom). -/
structure SMALL_RECT where
  Left : Int
  Top : Int
  Right : Int
  Bottom : Int
deriving DecidableEq, Repr

/-- DBCS attribute of a buffer cell: a plain single-width cell, or the
leading / trailing half of a double-width glyph. -/
inductive DbcsAttr where
  | single
  | leading
  | trailing
deriving DecidableEq, Repr

/-- Whether the cell is the trailing half of a double-width glyph. -/
def DbcsAttr.isTrailing : DbcsAttr → Bool
  | .trailing => true
  | _ => false

/-- Whether the cell is the leading half of a double-width glyph. -/
def DbcsAttr.isLeading : DbcsAttr → Bool
  | .leading => true
  | _ => false

/-- The consumed interface of the text buffer collaborator: the
rightmost addressable column index, DBCS lookup per cell, and per-row
clipboard text assembly. -/
structure TextBuffer where
  rightInclusive : Int
  cellDbcsAt : COORD → DbcsAttr
  textForRow : Bool → Bool → SMALL_RECT → String

/-- Modelled from the spec: the text buffer collaborator assembles the
clipboard text as one text fragment per requested row rectangle, given
the stream/box flag and the trim flag (its implementation is not part
of this repository). The color-resolution callbacks of the original
call are forwarded opaquely and do not influence the selected text, so
they are not modelled. -/
def TextBuffer.getTextForClipboard (buf : TextBuffer) (lineSelection : Bool)
    (trimTrailingWhitespace : Bool) (rects : List SMALL_RECT) : List String :=
  rects.map (buf.textForRow lineSelection trimTrailingWhitespace)

/-- The consumed interface of the viewport collaborator: its rightmost
addressable column index (columns run from 0 to it, inclusive). -/
structure Viewport where
  rightInclusive : Int
deriving DecidableEq, Repr

/-- Modelled from the spec: the viewport collaborator performs a
bounds-clamped single-column decrement of a coordinate, returning
success or failure rather than wrapping or going out of range (its
implementation is not part of this repository). -/
def Viewport.decrementInBounds (_vp : Viewport) (p : COORD) : Option COORD :=
  if 1 ≤ p.X then some ⟨p.X - 1, p.Y⟩ else none

/-- Modelled from the spec: the viewport collaborator performs a
bounds-clamped single-column increment of a coordinate, returning
success or failure rather than wrapping or going out of range (its
implementation is not part of this repository). -/
def Viewport.incrementInBounds (vp : Viewport) (p : COORD) : Option COORD :=
  if p.X + 1 ≤ vp.rightInclusive then some ⟨p.X + 1, p.Y⟩ else none

/-- The single error kind of this core: a coordinate adjustment left
the representable coordinate range (covers both the intsafe overflow
failures and the gsl narrowing failures, which the design folds into
one ArithmeticOverflow condition). -/
inductive SelectionError where
  | arithmeticOverflow
deriving DecidableEq, Repr

/-- The selection-related state of the Terminal object, together with
the live scroll offset and view start index it reads when recording
endpoints. -/
structure TerminalState where
  selectionActive : Bool
  selectionAnchor : COORD
  endSelectionPosition : COORD
  selectionAnchor_YOffset : Int
  endSelectionPosition_YOffset : Int
  boxSelection : Bool
  scrollOffset : Int
  viewStartIndex : Int
deriving DecidableEq, Repr

/-- Terminal::_ExpandWideGlyphSelection_Left: if the cell at the left
boundary is the trailing half of a wide glyph, try a bounds-clamped
decrement; if that fails, try a bounds-clamped increment; on failure of
both the position is unchanged. -/
def expandWideGlyphSelection_Left (buf : TextBuffer) (vp : Viewport)
    (x_pos y_pos : Int) : Int :=
  let position : COORD := ⟨x_pos, y_pos⟩
  let attr := buf.cellDbcsAt position
  if attr.isTrailing then
    match vp.decrementInBounds position with
    | some p => p.X
    | none =>
      match vp.incrementInBounds position with
      | some p => p.X
      | none => position.X
  else
    position.X

/-- Terminal::_ExpandWideGlyphSelection_Right: if the cell at the right
boundary is the leading half of a wide glyph, try a bounds-clamped
increment; if that fails, try a bounds-clamped decrement; on failure of
both the position is unchanged. -/
def expandWideGlyphSelection_Right (buf : TextBuffer) (vp : Viewport)
    (x_pos y_pos : Int) : Int :=
  let position : COORD := ⟨x_pos, y_pos⟩
  let attr := buf.cellDbcsAt position
  if attr.isLeading then
    match vp.incrementInBounds position with
    | some p => p.X
    | none =>
      match vp.decrementInBounds position with
      | some p => p.X
      | none => position.X
  else
    position.X

/-- The left column bound of one selection row before wide-glyph
correction (the branch at lines 43-52 of the source). -/
def preCorrectionLeft (boxSelection : Bool) (higherCoord lowerCoord : COORD)
    (row : Int) : Int :=
  if boxSelection ∨ higherCoord.Y = lowerCoord.Y then
    min higherCoord.X lowerCoord.X
  else
    if row = higherCoord.Y then higherCoord.X else 0

/-- The right column bound of one selection row before wide-glyph
correction (the branch at lines 43-52 of the source). -/
def preCorrectionRight (boxSelection : Bool) (higherCoord lowerCoord : COORD)
    (buf : TextBuffer) (row : Int) : Int :=
  if boxSelection ∨ higherCoord.Y = lowerCoord.Y then
    max higherCoord.X lowerCoord.X
  else
    if row = lowerCoord.Y then lowerCoord.X else buf.rightInclusive

/-- One iteration of the row loop of Terminal::_GetSelectionRects:
compute the raw bounds of this row and apply wide-glyph correction to
both edges. -/
def selectionRowFor (boxSelection : Bool) (buf : TextBuffer) (vp : Viewport)
    (higherCoord lowerCoord : COORD) (row : Int) : SMALL_RECT :=
  { Left := expandWideGlyphSelection_Left buf vp
      (preCorrectionLeft boxSelection higherCoord lowerCoord row) row,
    Top := row,
    Right := expandWideGlyphSelection_Right buf vp
      (preCorrectionRight boxSelection higherCoord lowerCoord buf row) row,
    Bottom := row }

/-- Terminal::_GetSelectionRects: empty when no selection is active;
otherwise resolve both endpoints to absolute rows through their frozen
offsets (checked 16-bit additions that can overflow), order them, and
produce one corrected row rectangle per absolute row between them. -/
def getSelectionRects (st : TerminalState) (buf : TextBuffer) (vp : Viewport) :
    Except SelectionError (List SMALL_RECT) :=
  if !st.selectionActive then
    Except.ok []
  else
    match shortAdd st.selectionAnchor.Y st.selectionAnchor_YOffset with
    | none => Except.error SelectionError.arithmeticOverflow
    | some temp1 =>
      match shortAdd st.endSelectionPosition.Y st.endSelectionPosition_YOffset with
      | none => Except.error SelectionError.arithmeticOverflow
      | some temp2 =>
        let selectionAnchorWithOffset : COORD := ⟨st.selectionAnchor.X, temp1⟩
        let endSelectionPositionWithOffset : COORD := ⟨st.endSelectionPosition.X, temp2⟩
        let higherCoord : COORD :=
          if selectionAnchorWithOffset.Y ≤ endSelectionPositionWithOffset.Y then
            selectionAnchorWithOffset
          else
            endSelectionPositionWithOffset
        let lowerCoord : COORD :=
          if endSelectionPositionWithOffset.Y < selectionAnchorWithOffset.Y then
            selectionAnchorWithOffset
          else
            endSelectionPositionWithOffset
        Except.ok ((List.range (lowerCoord.Y - higherCoord.Y + 1).toNat).map
          (fun (i : Nat) => selectionRowFor st.boxSelection buf vp higherCoord lowerCoord
            (higherCoord.Y + (i : Int))))

/-- Terminal::IsSelectionActive. -/
def isSelectionActive (st : TerminalState) : Bool :=
  st.selectionActive

/-- Terminal::SetEndSelectionPosition: record the end position with its
row adjusted by the narrowed live scroll offset (checked subtraction),
and freeze the current view start index as its row offset. -/
def setEndSelectionPosition (st : TerminalState) (position : COORD) :
    Except SelectionError TerminalState :=
  match narrowShort st.scrollOffset with
  | none => Except.error SelectionError.arithmeticOverflow
  | some so =>
    match shortSub position.Y so with
    | none => Except.error SelectionError.arithmeticOverflow
    | some y =>
      match narrowShort st.viewStartIndex with
      | none => Except.error SelectionError.arithmeticOverflow
      | some vsi =>
        Except.ok { st with
          endSelectionPosition := ⟨position.X, y⟩,
          endSelectionPosition_YOffset := vsi }

/-- Terminal::SetSelectionAnchor: record the anchor the same way, mark
the selection active, then record the end position from the same
viewport position. -/
def setSelectionAnchor (st : TerminalState) (position : COORD) :
    Except SelectionError TerminalState :=
  match narrowShort st.scrollOffset with
  | none => Except.error SelectionError.arithmeticOverflow
  | some so =>
    match shortSub position.Y so with
    | none => Except.error SelectionError.arithmeticOverflow
    | some y =>
      match narrowShort st.viewStartIndex with
      | none => Except.error SelectionError.arithmeticOverflow
      | some vsi =>
        setEndSelectionPosition { st with
          selectionAnchor := ⟨position.X, y⟩,
          selectionAnchor_YOffset := vsi,
          selectionActive := true } position

/-- Terminal::SetBoxSelection. -/
def setBoxSelection (st : TerminalState) (isEnabled : Bool) : TerminalState :=
  { st with boxSelection := isEnabled }

/-- Terminal::ClearSelection: deactivate and zero both endpoints and
their frozen offsets. -/
def clearSelection (st : TerminalState) : TerminalState :=
  { st with
    selectionActive := false,
    selectionAnchor := ⟨0, 0⟩,
    endSelectionPosition := ⟨0, 0⟩,
    selectionAnchor_YOffset := 0,
    endSelectionPosition_YOffset := 0 }

/-- Terminal::RetrieveSelectedTextFromBuffer: hand the selection
rectangles, the stream/box flag and the trim flag to the buffer
collaborator and concatenate the returned per-row fragments. -/
def retrieveSelectedTextFromBuffer (st : TerminalState) (buf : TextBuffer)
    (vp : Viewport) (trimTrailingWhitespace : Bool) :
    Except SelectionError String :=
  match getSelectionRects st buf vp with
  | Except.error e => Except.error e
  | Except.ok rects =>
    Except.ok (String.join
      (buf.getTextForClipboard (!st.boxSelection) trimTrailingWhitespace rects))

/-- The absolute row the anchor resolves to: recorded row plus frozen
offset. -/
def anchorAbsY (st : TerminalState) : Int :=
  st.selectionAnchor.Y + st.selectionAnchor_YOffset

/-- The absolute row the end position resolves to: recorded row plus
frozen offset. -/
def endAbsY (st : TerminalState) : Int :=
  st.endSelectionPosition.Y + st.endSelectionPosition_YOffset

/-- The endpoint with the smaller absolute row (the higherCoord of the
source, once the checked additions succeed). -/
def topCoord (st : TerminalState) : COORD :=
  if anchorAbsY st ≤ endAbsY st then
    ⟨st.selectionAnchor.X, anchorAbsY st⟩
  else
    ⟨st.endSelectionPosition.X, endAbsY st⟩

/-- The endpoint with the larger absolute row (the lowerCoord of the
source, once the checked additions succeed). -/
def bottomCoord (st : TerminalState) : COORD :=
  if endAbsY st < anchorAbsY st then
    ⟨st.selectionAnchor.X, anchorAbsY st⟩
  else
    ⟨st.endSelectionPosition.X, endAbsY st⟩

/-! ## Concrete instances used by witnesses and counterexamples -/

/-- A buffer of width 10 with no wide glyphs (scenario B of the spec). -/
def exBufPlain : TextBuffer :=
  { rightInclusive := 9,
    cellDbcsAt := fun _ => DbcsAttr.single,
    textForRow := fun _ _ _ => "" }

/-- A viewport matching exBufPlain. -/
def exVpPlain : Viewport := ⟨9⟩

/-- Scenario B of the spec: active stream selection, anchor at row 1
column 3 and end at row 3 column 2, both recorded with frozen offset 0. -/
def exStB : TerminalState :=
  { selectionActive := true,
    selectionAnchor := ⟨3, 1⟩,
    endSelectionPosition := ⟨2, 3⟩,
    selectionAnchor_YOffset := 0,
    endSelectionPosition_YOffset := 0,
    boxSelection := false,
    scrollOffset := 0,
    viewStartIndex := 0 }

/-- The anchor recorded out of the addressable column range (column 5
of a width-4 buffer), stream selection over two rows. -/
def cexStC4 : TerminalState :=
  { selectionActive := true,
    selectionAnchor := ⟨5, 0⟩,
    endSelectionPosition := ⟨0, 1⟩,
    selectionAnchor_YOffset := 0,
    endSelectionPosition_YOffset := 0,
    boxSelection := false,
    scrollOffset := 0,
    viewStartIndex := 0 }

/-- A buffer of width 4 with no wide glyphs. -/
def cexBufC4 : TextBuffer :=
  { rightInclusive := 3,
    cellDbcsAt := fun _ => DbcsAttr.single,
    textForRow := fun _ _ _ => "" }

/-- Single-row selection on row 0, anchor column 2 and end column 4,
over a buffer where (1,0)/(2,0) hold a double-width glyph. -/
def cexStC5 : TerminalState :=
  { selectionActive := true,
    selectionAnchor := ⟨2, 0⟩,
    endSelectionPosition := ⟨4, 0⟩,
    selectionAnchor_YOffset := 0,
    endSelectionPosition_YOffset := 0,
    boxSelection := false,
    scrollOffset := 0,
    viewStartIndex := 0 }

/-- A buffer of width 10 whose cells (1,0) and (2,0) are the leading
and trailing halves of one double-width glyph. -/
def cexBufC5 : TextBuffer :=
  { rightInclusive := 9,
    cellDbcsAt := fun p =>
      if p.X = 1 ∧ p.Y = 0 then DbcsAttr.leading
      else if p.X = 2 ∧ p.Y = 0 then DbcsAttr.trailing
      else DbcsAttr.single,
    textForRow := fun _ _ _ => "" }

/-- Scenario A of the spec: anchor at row 2 column 5, end at row 2
column 1, stream mode, frozen offsets 0. -/
def exStA : TerminalState :=
  { selectionActive := true,
    selectionAnchor := ⟨5, 2⟩,
    endSelectionPosition := ⟨1, 2⟩,
    selectionAnchor_YOffset := 0,
    endSelectionPosition_YOffset := 0,
    boxSelection := false,
    scrollOffset := 0,
    viewStartIndex := 0 }

/-- A single-column buffer whose only cell column is a trailing half. -/
def cexBufC6 : TextBuffer :=
  { rightInclusive := 0,
    cellDbcsAt := fun _ => DbcsAttr.trailing,
    textForRow := fun _ _ _ => "" }

/-- A state with scroll offset 1 (all other fields inactive/zero). -/
def exStC7 : TerminalState :=
  { selectionActive := false,
    selectionAnchor := ⟨0, 0⟩,
    endSelectionPosition := ⟨0, 0⟩,
    selectionAnchor_YOffset := 0,
    endSelectionPosition_YOffset := 0,
    boxSelection := false,
    scrollOffset := 1,
    viewStartIndex := 0 }

/-- An active selection whose anchor resolves to absolute row
30000 + 30000 = 60000, outside the SHORT range. -/
def cexStC8 : TerminalState :=
  { selectionActive := true,
    selectionAnchor := ⟨0, 30000⟩,
    endSelectionPosition := ⟨0, 0⟩,
    selectionAnchor_YOffset := 30000,
    endSelectionPosition_YOffset := 0,
    boxSelection := false,
    scrollOffset := 0,
    viewStartIndex := 0 }

/-- A fully zeroed inactive state. -/
def exStInactive : TerminalState :=
  { selectionActive := false,
    selectionAnchor := ⟨0, 0⟩,
    endSelectionPosition := ⟨0, 0⟩,
    selectionAnchor_YOffset := 0,
    endSelectionPosition_YOffset := 0,
    boxSelection := false,
    scrollOffset := 0,
    viewStartIndex := 0 }

/-- The state reached by extending the inactive zero state to (4,5). -/
def exStC10 : TerminalState :=
  { selectionActive := false,
    selectionAnchor := ⟨0, 0⟩,
    endSelectionPosition := ⟨4, 5⟩,
    selectionAnchor_YOffset := 0,
    endSelectionPosition_YOffset := 0,
    boxSelection := false,
    scrollOffset := 0,
    viewStartIndex := 0 }

/-! ## Helper lemmas about the embedding -/

theorem shortAdd_eq_some (a b t : Int) (h : shortAdd a b = some t) :
    inShortRange (a + b) ∧ t = a + b := by
  unfold shortAdd at h
  by_cases hc : inShortRange (a + b)
  · rw [if_pos hc] at h
    exact ⟨hc, (Option.some.injEq _ _ ▸ h).symm⟩
  · rw [if_neg hc] at h
    exact Option.noConfusion h

theorem shortSub_eq_some (a b t : Int) (h : shortSub a b = some t) :
    inShortRange (a - b) ∧ t = a - b := by
  unfold shortSub at h
  by_cases hc : inShortRange (a - b)
  · rw [if_pos hc] at h
    exact ⟨hc, (Option.some.injEq _ _ ▸ h).symm⟩
  · rw [if_neg hc] at h
    exact Option.noConfusion h

theorem narrowShort_eq_some (a t : Int) (h : narrowShort a = some t) :
    inShortRange a ∧ t = a := by
  unfold narrowShort at h
  by_cases hc : inShortRange a
  · rw [if_pos hc] at h
    exact ⟨hc, (Option.some.injEq _ _ ▸ h).symm⟩
  · rw [if_neg hc] at h
    exact Option.noConfusion h

theorem getSelectionRects_active_eq (st : TerminalState) (buf : TextBuffer)
    (vp : Viewport) (hact : st.selectionActive = true)
    (h1 : inShortRange (anchorAbsY st)) (h2 : inShortRange (endAbsY st)) :
    getSelectionRects st buf vp = Except.ok
      ((List.range ((bottomCoord st).Y - (topCoord st).Y + 1).toNat).map
        (fun (i : Nat) => selectionRowFor st.boxSelection buf vp (topCoord st) (bottomCoord st)
          ((topCoord st).Y + (i : Int)))) := by
  have ha : shortAdd st.selectionAnchor.Y st.selectionAnchor_YOffset
      = some (anchorAbsY st) := by
    unfold anchorAbsY at h1 ⊢
    unfold shortAdd
    rw [if_pos h1]
  have he : shortAdd st.endSelectionPosition.Y st.endSelectionPosition_YOffset
      = some (endAbsY st) := by
    unfold endAbsY at h2 ⊢
    unfold shortAdd
    rw [if_pos h2]
  unfold getSelectionRects
  rw [hact, ha, he]
  rfl

theorem getSelectionRects_ok_inv (st : TerminalState) (buf : TextBuffer)
    (vp : Viewport) (rows : List SMALL_RECT)
    (hact : st.selectionActive = true)
    (h : getSelectionRects st buf vp = Except.ok rows) :
    inShortRange (anchorAbsY st) ∧ inShortRange (endAbsY st) ∧
    rows = (List.range ((bottomCoord st).Y - (topCoord st).Y + 1).toNat).map
      (fun (i : Nat) => selectionRowFor st.boxSelection buf vp (topCoord st) (bottomCoord st)
        ((topCoord st).Y + (i : Int))) := by
  have h1h2 : inShortRange (anchorAbsY st) ∧ inShortRange (endAbsY st) := by
    unfold getSelectionRects at h
    rw [hact] at h
    simp only [Bool.not_true, Bool.false_eq_true, if_false] at h
    rcases ha : shortAdd st.selectionAnchor.Y st.selectionAnchor_YOffset with _ | temp1
    · rw [ha] at h
      exact Except.noConfusion h
    rcases he : shortAdd st.endSelectionPosition.Y st.endSelectionPosition_YOffset
        with _ | temp2
    · rw [ha, he] at h
      exact Except.noConfusion h
    obtain ⟨hr1, _⟩ := shortAdd_eq_some _ _ _ ha
    obtain ⟨hr2, _⟩ := shortAdd_eq_some _ _ _ he
    exact ⟨hr1, hr2⟩
  obtain ⟨h1, h2⟩ := h1h2
  have hstep := getSelectionRects_active_eq st buf vp hact h1 h2
  rw [hstep] at h
  refine ⟨h1, h2, ?_⟩
  injection h with hh
  exact hh.symm

theorem topCoord_Y (st : TerminalState) :
    (topCoord st).Y = min (anchorAbsY st) (endAbsY st) := by
  unfold topCoord
  split
  · rename_i hle
    simp [min_def, hle]
  · rename_i hgt
    rw [min_def, if_neg hgt]

theorem bottomCoord_Y (st : TerminalState) :
    (bottomCoord st).Y = max (anchorAbsY st) (endAbsY st) := by
  unfold bottomCoord
  split
  · rename_i hlt
    rw [max_def, if_neg (by omega)]
  · rename_i hge
    rw [max_def, if_pos (by omega)]

theorem topCoord_le_bottomCoord (st : TerminalState) :
    (topCoord st).Y ≤ (bottomCoord st).Y := by
  rw [topCoord_Y, bottomCoord_Y]
  exact min_le_max

theorem topCoord_X_cases (st : TerminalState) :
    (topCoord st).X = st.selectionAnchor.X ∨
    (topCoord st).X = st.endSelectionPosition.X := by
  unfold topCoord
  split
  · exact Or.inl rfl
  · exact Or.inr rfl

theorem bottomCoord_X_cases (st : TerminalState) :
    (bottomCoord st).X = st.selectionAnchor.X ∨
    (bottomCoord st).X = st.endSelectionPosition.X := by
  unfold bottomCoord
  split
  · exact Or.inl rfl
  · exact Or.inr rfl

/-! ## Claims -/

/-- C1: the rows returned by computeSelectedRows depend only on the
recorded endpoints (coordinate plus frozen row offset, resolved as
coordinate row + rowOffset); they are unchanged by any later change to
the live scroll offset or to the current top row of the viewport. -/
theorem selection_rows_scroll_independent (st : TerminalState) (buf : TextBuffer)
    (vp : Viewport) (so vsi : Int) :
    getSelectionRects { st with scrollOffset := so, viewStartIndex := vsi } buf vp
      = getSelectionRects st buf vp := rfl

/-- C2: for an active selection, computeSelectedRows returns exactly
one row per absolute row in the closed interval from the smaller to the
larger resolved endpoint row, in ascending order, with no gaps and no
duplicates: the sequence of Top values is the enumeration of that
interval. -/
theorem computeSelectedRows_interval (st : TerminalState) (buf : TextBuffer)
    (vp : Viewport) (rows : List SMALL_RECT)
    (hact : st.selectionActive = true)
    (h : getSelectionRects st buf vp = Except.ok rows) :
    rows.map (fun rect => rect.Top)
      = (List.range ((max (anchorAbsY st) (endAbsY st)
            - min (anchorAbsY st) (endAbsY st)).toNat + 1)).map
          (fun (i : Nat) => min (anchorAbsY st) (endAbsY st) + (i : Int)) := by
  obtain ⟨h1, h2, hrows⟩ := getSelectionRects_ok_inv st buf vp rows hact h
  subst hrows
  rw [List.map_map]
  simp only [topCoord_Y, bottomCoord_Y]
  have hlen : (max (anchorAbsY st) (endAbsY st)
      - min (anchorAbsY st) (endAbsY st) + 1).toNat
      = (max (anchorAbsY st) (endAbsY st)
          - min (anchorAbsY st) (endAbsY st)).toNat + 1 := by
    omega
  rw [hlen]
  refine List.map_congr_left ?_
  intro a _
  rfl

/-- Witness for C2 at scenario B: the three returned rows cover the
absolute rows 1, 2, 3 in order. -/
theorem computeSelectedRows_interval_witness :
    ([⟨3, 1, 9, 1⟩, ⟨0, 2, 9, 2⟩, ⟨0, 3, 2, 3⟩] : List SMALL_RECT).map
        (fun rect => rect.Top)
      = (List.range ((max (anchorAbsY exStB) (endAbsY exStB)
            - min (anchorAbsY exStB) (endAbsY exStB)).toNat + 1)).map
          (fun (i : Nat) => min (anchorAbsY exStB) (endAbsY exStB) + (i : Int)) :=
  computeSelectedRows_interval exStB exBufPlain exVpPlain
    [⟨3, 1, 9, 1⟩, ⟨0, 2, 9, 2⟩, ⟨0, 3, 2, 3⟩] rfl rfl

/-- C3: for an active multi-row stream selection, before wide-glyph
correction the first produced row spans from the X of the top endpoint
to the rightmost buffer column, the last row spans from column 0 to the
X of the bottom endpoint, and every interior row spans the full width;
the produced rows are exactly these bounds with wide-glyph correction
applied. -/
theorem stream_multirow_shape (st : TerminalState) (buf : TextBuffer)
    (vp : Viewport) (rows : List SMALL_RECT)
    (hact : st.selectionActive = true)
    (hbox : st.boxSelection = false)
    (hne : anchorAbsY st ≠ endAbsY st)
    (h : getSelectionRects st buf vp = Except.ok rows) :
    2 ≤ rows.length ∧
    rows = (List.range rows.length).map (fun (i : Nat) =>
      { Left := expandWideGlyphSelection_Left buf vp
          (if i = 0 then (topCoord st).X else 0) ((topCoord st).Y + (i : Int)),
        Top := (topCoord st).Y + (i : Int),
        Right := expandWideGlyphSelection_Right buf vp
          (if i = rows.length - 1 then (bottomCoord st).X else buf.rightInclusive)
          ((topCoord st).Y + (i : Int)),
        Bottom := (topCoord st).Y + (i : Int) }) := by
  obtain ⟨h1, h2, hrows⟩ := getSelectionRects_ok_inv st buf vp rows hact h
  have htb : (topCoord st).Y < (bottomCoord st).Y := by
    rw [topCoord_Y, bottomCoord_Y]
    omega
  subst hrows
  simp only [List.length_map, List.length_range]
  set n := ((bottomCoord st).Y - (topCoord st).Y + 1).toNat with hn
  constructor
  · omega
  · refine List.map_congr_left ?_
    intro i hi
    rw [List.mem_range] at hi
    unfold selectionRowFor preCorrectionLeft preCorrectionRight
    have hcond : ¬(st.boxSelection = true ∨ (topCoord st).Y = (bottomCoord st).Y) := by
      rw [hbox]
      push_neg
      exact ⟨by decide, by omega⟩
    rw [if_neg hcond, if_neg hcond]
    have e1 : ((topCoord st).Y + (i : Int) = (topCoord st).Y) ↔ (i = 0) := by omega
    have e2 : ((topCoord st).Y + (i : Int) = (bottomCoord st).Y) ↔ (i = n - 1) := by
      omega
    rw [if_congr e1 rfl rfl, if_congr e2 rfl rfl]

/-- Witness for C3 at scenario B: three rows with bounds (3,9), (0,9),
(0,2) before correction, which is the identity here since the buffer
has no wide glyphs. -/
theorem stream_multirow_shape_witness :
    2 ≤ ([⟨3, 1, 9, 1⟩, ⟨0, 2, 9, 2⟩, ⟨0, 3, 2, 3⟩] : List SMALL_RECT).length ∧
    ([⟨3, 1, 9, 1⟩, ⟨0, 2, 9, 2⟩, ⟨0, 3, 2, 3⟩] : List SMALL_RECT)
      = (List.range ([⟨3, 1, 9, 1⟩, ⟨0, 2, 9, 2⟩, ⟨0, 3, 2, 3⟩] : List SMALL_RECT).length).map
          (fun (i : Nat) =>
            { Left := expandWideGlyphSelection_Left exBufPlain exVpPlain
                (if i = 0 then (topCoord exStB).X else 0)
                ((topCoord exStB).Y + (i : Int)),
              Top := (topCoord exStB).Y + (i : Int),
              Right := expandWideGlyphSelection_Right exBufPlain exVpPlain
                (if i = ([⟨3, 1, 9, 1⟩, ⟨0, 2, 9, 2⟩, ⟨0, 3, 2, 3⟩] : List SMALL_RECT).length - 1
                  then (bottomCoord exStB).X else exBufPlain.rightInclusive)
                ((topCoord exStB).Y + (i : Int)),
              Bottom := (topCoord exStB).Y + (i : Int) }) :=
  stream_multirow_shape exStB exBufPlain exVpPlain
    [⟨3, 1, 9, 1⟩, ⟨0, 2, 9, 2⟩, ⟨0, 3, 2, 3⟩] rfl rfl (by decide) rfl

theorem expandLeft_bounds (buf : TextBuffer) (vp : Viewport) (x y : Int)
    (htr : (buf.cellDbcsAt ⟨x, y⟩).isTrailing = true → 1 ≤ x) :
    x - 1 ≤ expandWideGlyphSelection_Left buf vp x y ∧
    expandWideGlyphSelection_Left buf vp x y ≤ x := by
  unfold expandWideGlyphSelection_Left
  by_cases ht : (buf.cellDbcsAt ⟨x, y⟩).isTrailing = true
  · have hx := htr ht
    simp only [ht, if_true, Viewport.decrementInBounds, if_pos hx]
    constructor <;> simp
  · simp only [Bool.not_eq_true] at ht
    simp only [ht, Bool.false_eq_true, if_false]
    omega

theorem expandRight_bounds (buf : TextBuffer) (vp : Viewport) (x y : Int)
    (hld : (buf.cellDbcsAt ⟨x, y⟩).isLeading = true → x + 1 ≤ vp.rightInclusive) :
    x ≤ expandWideGlyphSelection_Right buf vp x y ∧
    expandWideGlyphSelection_Right buf vp x y ≤ x + 1 := by
  unfold expandWideGlyphSelection_Right
  by_cases hl : (buf.cellDbcsAt ⟨x, y⟩).isLeading = true
  · have hx := hld hl
    simp only [hl, if_true, Viewport.incrementInBounds, if_pos hx]
    constructor <;> simp
  · simp only [Bool.not_eq_true] at hl
    simp only [hl, Bool.false_eq_true, if_false]
    omega

/-- Counterexample to C4 as stated: with an anchor column recorded
beyond the rightmost buffer column, the first produced row has
Left = 5 and Right = 3, so left ≤ right fails on a produced row. -/
theorem selection_rows_left_le_right_counterexample :
    getSelectionRects cexStC4 cexBufC4 ⟨3⟩
      = Except.ok [⟨5, 0, 3, 0⟩, ⟨0, 1, 0, 1⟩]
    ∧ ¬((5 : Int) ≤ 3) :=
  ⟨rfl, by decide⟩

/-- C4 (amended): every produced row satisfies left ≤ right, provided
both endpoint columns lie within the addressable range 0 to the
rightmost buffer column, that range is nonempty, no trailing half sits
at column 0 or below, and every leading half sits strictly left of the
rightmost viewport column. -/
theorem selection_rows_left_le_right (st : TerminalState) (buf : TextBuffer)
    (vp : Viewport) (rows : List SMALL_RECT)
    (h : getSelectionRects st buf vp = Except.ok rows)
    (haX0 : 0 ≤ st.selectionAnchor.X)
    (haX1 : st.selectionAnchor.X ≤ buf.rightInclusive)
    (heX0 : 0 ≤ st.endSelectionPosition.X)
    (heX1 : st.endSelectionPosition.X ≤ buf.rightInclusive)
    (hW : 0 ≤ buf.rightInclusive)
    (htr : ∀ p : COORD, (buf.cellDbcsAt p).isTrailing = true → 1 ≤ p.X)
    (hld : ∀ p : COORD, (buf.cellDbcsAt p).isLeading = true → p.X + 1 ≤ vp.rightInclusive) :
    ∀ rect ∈ rows, rect.Left ≤ rect.Right := by
  by_cases hact : st.selectionActive = true
  · obtain ⟨h1, h2, hrows⟩ := getSelectionRects_ok_inv st buf vp rows hact h
    subst hrows
    intro rect hrect
    rw [List.mem_map] at hrect
    obtain ⟨i, _, hfi⟩ := hrect
    subst hfi
    set row := (topCoord st).Y + (i : Int) with hrow
    set l := preCorrectionLeft st.boxSelection (topCoord st) (bottomCoord st) row with hl
    set r := preCorrectionRight st.boxSelection (topCoord st) (bottomCoord st) buf row
      with hr
    have hL := expandLeft_bounds buf vp l row (htr ⟨l, row⟩)
    have hR := expandRight_bounds buf vp r row (hld ⟨r, row⟩)
    have hlr : l ≤ r := by
      rw [hl, hr]
      unfold preCorrectionLeft preCorrectionRight
      by_cases hc : st.boxSelection = true ∨ (topCoord st).Y = (bottomCoord st).Y
      · rw [if_pos hc, if_pos hc]
        exact min_le_max
      · rw [if_neg hc, if_neg hc]
        have htX : (topCoord st).X ≤ buf.rightInclusive := by
          rcases topCoord_X_cases st with hx | hx <;> rw [hx] <;> assumption
        have hbX : 0 ≤ (bottomCoord st).X := by
          rcases bottomCoord_X_cases st with hx | hx <;> rw [hx] <;> assumption
        by_cases hrt : row = (topCoord st).Y
        · rw [if_pos hrt]
          by_cases hrb : row = (bottomCoord st).Y
          · exact absurd (Or.inr (hrt ▸ hrb)) hc
          · rw [if_neg hrb]
            exact htX
        · rw [if_neg hrt]
          by_cases hrb : row = (bottomCoord st).Y
          · rw [if_pos hrb]
            exact hbX
          · rw [if_neg hrb]
            exact hW
    show expandWideGlyphSelection_Left buf vp l row
      ≤ expandWideGlyphSelection_Right buf vp r row
    omega
  · intro rect hrect
    unfold getSelectionRects at h
    simp only [Bool.not_eq_true] at hact
    rw [hact] at h
    simp only [Bool.not_false, if_true] at h
    injection h with hh
    rw [← hh] at hrect
    exact absurd hrect (List.not_mem_nil rect)

/-- Witness for C4 (amended) at scenario B: the first produced row has
Left = 3 and Right = 9. -/
theorem selection_rows_left_le_right_witness :
    (⟨3, 1, 9, 1⟩ : SMALL_RECT).Left ≤ (⟨3, 1, 9, 1⟩ : SMALL_RECT).Right :=
  selection_rows_left_le_right exStB exBufPlain exVpPlain
    [⟨3, 1, 9, 1⟩, ⟨0, 2, 9, 2⟩, ⟨0, 3, 2, 3⟩] rfl (by decide) (by decide)
    (by decide) (by decide) (by decide)
    (by intro p hp; simp [exBufPlain, DbcsAttr.isTrailing] at hp)
    (by intro p hp; simp [exBufPlain, DbcsAttr.isLeading] at hp)
    ⟨3, 1, 9, 1⟩ (by decide)

theorem anchorAbsY_box (st : TerminalState) (b : Bool) :
    anchorAbsY { st with boxSelection := b } = anchorAbsY st := rfl

theorem endAbsY_box (st : TerminalState) (b : Bool) :
    endAbsY { st with boxSelection := b } = endAbsY st := rfl

theorem getSelectionRects_single_row (st : TerminalState) (buf : TextBuffer)
    (vp : Viewport) (hact : st.selectionActive = true)
    (heq : anchorAbsY st = endAbsY st)
    (hr : inShortRange (anchorAbsY st)) :
    getSelectionRects st buf vp = Except.ok
      [selectionRowFor st.boxSelection buf vp
        ⟨st.selectionAnchor.X, anchorAbsY st⟩
        ⟨st.endSelectionPosition.X, endAbsY st⟩ (anchorAbsY st)] := by
  rw [getSelectionRects_active_eq st buf vp hact hr (heq ▸ hr)]
  have htc : topCoord st = ⟨st.selectionAnchor.X, anchorAbsY st⟩ := by
    unfold topCoord
    rw [if_pos (le_of_eq heq)]
  have hbc : bottomCoord st = ⟨st.endSelectionPosition.X, endAbsY st⟩ := by
    unfold bottomCoord
    rw [if_neg (by omega)]
  rw [htc, hbc]
  have hone : ((⟨st.endSelectionPosition.X, endAbsY st⟩ : COORD).Y
      - (⟨st.selectionAnchor.X, anchorAbsY st⟩ : COORD).Y + 1).toNat = 1 := by
    simp only []
    omega
  rw [hone]
  rw [show List.range 1 = [0] from rfl]
  simp [heq]

/-- Counterexample to C5 as stated: on a single-row selection whose
left bound lands on the trailing half of a wide glyph, the produced row
has Left = 1, not min(anchor.X, end.X) = 2. -/
theorem singlerow_mode_equiv_counterexample :
    getSelectionRects cexStC5 cexBufC5 exVpPlain = Except.ok [⟨1, 0, 4, 0⟩]
    ∧ ¬((1 : Int) = min 2 4) :=
  ⟨rfl, by decide⟩

/-- C5 (amended): when anchor and end resolve to the same absolute row,
computeSelectedRows produces the same single row whether box mode is on
or off, and that row is the wide-glyph correction of the bounds
left = min(anchor.X, end.X), right = max(anchor.X, end.X); so left and
right equal that min and max whenever no double-width glyph straddles
them. -/
theorem singlerow_mode_equiv (st : TerminalState) (buf : TextBuffer)
    (vp : Viewport) (hact : st.selectionActive = true)
    (heq : anchorAbsY st = endAbsY st)
    (hr : inShortRange (anchorAbsY st)) :
    getSelectionRects { st with boxSelection := true } buf vp
      = getSelectionRects { st with boxSelection := false } buf vp
    ∧ getSelectionRects st buf vp = Except.ok
        [{ Left := expandWideGlyphSelection_Left buf vp
             (min st.selectionAnchor.X st.endSelectionPosition.X) (anchorAbsY st),
           Top := anchorAbsY st,
           Right := expandWideGlyphSelection_Right buf vp
             (max st.selectionAnchor.X st.endSelectionPosition.X) (anchorAbsY st),
           Bottom := anchorAbsY st }] := by
  have key : ∀ b : Bool, getSelectionRects { st with boxSelection := b } buf vp
      = Except.ok
        [{ Left := expandWideGlyphSelection_Left buf vp
             (min st.selectionAnchor.X st.endSelectionPosition.X) (anchorAbsY st),
           Top := anchorAbsY st,
           Right := expandWideGlyphSelection_Right buf vp
             (max st.selectionAnchor.X st.endSelectionPosition.X) (anchorAbsY st),
           Bottom := anchorAbsY st }] := by
    intro b
    rw [getSelectionRects_single_row { st with boxSelection := b } buf vp hact heq hr]
    simp [selectionRowFor, preCorrectionLeft, preCorrectionRight,
      anchorAbsY_box, endAbsY_box, heq]
  exact ⟨(key true).trans (key false).symm, key st.boxSelection⟩

/-- Witness for C5 (amended) at scenario A: both modes give the single
row from column 1 to column 5 on absolute row 2. -/
theorem singlerow_mode_equiv_witness :
    getSelectionRects { exStA with boxSelection := true } exBufPlain exVpPlain
      = getSelectionRects { exStA with boxSelection := false } exBufPlain exVpPlain
    ∧ getSelectionRects exStA exBufPlain exVpPlain = Except.ok
        [{ Left := expandWideGlyphSelection_Left exBufPlain exVpPlain
             (min exStA.selectionAnchor.X exStA.endSelectionPosition.X)
             (anchorAbsY exStA),
           Top := anchorAbsY exStA,
           Right := expandWideGlyphSelection_Right exBufPlain exVpPlain
             (max exStA.selectionAnchor.X exStA.endSelectionPosition.X)
             (anchorAbsY exStA),
           Bottom := anchorAbsY exStA }] :=
  singlerow_mode_equiv exStA exBufPlain exVpPlain rfl rfl (by decide)

/-- Counterexample to C6 as stated: on a single-column viewport, the
cell at the left boundary is a trailing half and the bounds-clamped
decrement fails, yet the boundary does not move one column forward
(the clamped increment fails too and the boundary stays at 0). -/
theorem expandWideGlyph_case_split_counterexample :
    (cexBufC6.cellDbcsAt ⟨0, 0⟩).isTrailing = true
    ∧ (⟨0⟩ : Viewport).decrementInBounds ⟨0, 0⟩ = none
    ∧ expandWideGlyphSelection_Left cexBufC6 ⟨0⟩ 0 0 ≠ 0 + 1 :=
  ⟨rfl, rfl, by decide⟩

/-- C6 (amended): wide-glyph edge correction is the following case
split. Left edge: a trailing half moves one column backward when the
bounds-clamped decrement succeeds, else one column forward when the
clamped increment succeeds, else stays. Right edge symmetrically: a
leading half moves one column forward when the clamped increment
succeeds, else one column backward when the clamped decrement succeeds,
else stays. A cell that is not the named half leaves the boundary
unchanged. -/
theorem expandWideGlyph_case_split (buf : TextBuffer) (vp : Viewport) (x y : Int) :
    expandWideGlyphSelection_Left buf vp x y =
      (if (buf.cellDbcsAt ⟨x, y⟩).isTrailing then
        if 1 ≤ x then x - 1
        else if x + 1 ≤ vp.rightInclusive then x + 1
        else x
      else x)
    ∧ expandWideGlyphSelection_Right buf vp x y =
      (if (buf.cellDbcsAt ⟨x, y⟩).isLeading then
        if x + 1 ≤ vp.rightInclusive then x + 1
        else if 1 ≤ x then x - 1
        else x
      else x) := by
  constructor
  · by_cases ht : (buf.cellDbcsAt ⟨x, y⟩).isTrailing = true
    · by_cases h1 : (1 : Int) ≤ x
      · simp [expandWideGlyphSelection_Left, Viewport.decrementInBounds, ht, h1]
      · by_cases h2 : x + 1 ≤ vp.rightInclusive
        · simp [expandWideGlyphSelection_Left, Viewport.decrementInBounds,
            Viewport.incrementInBounds, ht, h1, h2]
        · simp [expandWideGlyphSelection_Left, Viewport.decrementInBounds,
            Viewport.incrementInBounds, ht, h1, h2]
    · simp [expandWideGlyphSelection_Left, ht]
  · by_cases hl : (buf.cellDbcsAt ⟨x, y⟩).isLeading = true
    · by_cases h2 : x + 1 ≤ vp.rightInclusive
      · simp [expandWideGlyphSelection_Right, Viewport.incrementInBounds, hl, h2]
      · by_cases h1 : (1 : Int) ≤ x
        · simp [expandWideGlyphSelection_Right, Viewport.decrementInBounds,
            Viewport.incrementInBounds, hl, h1, h2]
        · simp [expandWideGlyphSelection_Right, Viewport.decrementInBounds,
            Viewport.incrementInBounds, hl, h1, h2]
    · simp [expandWideGlyphSelection_Right, hl]

/-- C7: if subtracting the live scroll offset from the row of the given
position leaves the SHORT range, both begin and extend fail with the
ArithmeticOverflow condition; the adjusted row is never silently
wrapped into range. -/
theorem beginExtend_overflow (st : TerminalState) (position : COORD)
    (hover : position.Y - st.scrollOffset < SHORT_MIN
      ∨ SHORT_MAX < position.Y - st.scrollOffset) :
    setSelectionAnchor st position = Except.error SelectionError.arithmeticOverflow
    ∧ setEndSelectionPosition st position
      = Except.error SelectionError.arithmeticOverflow := by
  have hsub : ∀ so : Int, narrowShort st.scrollOffset = some so →
      shortSub position.Y so = none := by
    intro so hso
    obtain ⟨_, hsoeq⟩ := narrowShort_eq_some _ _ hso
    subst hsoeq
    unfold shortSub
    rw [if_neg]
    unfold inShortRange
    omega
  constructor
  · unfold setSelectionAnchor
    rcases hns : narrowShort st.scrollOffset with _ | so
    · rfl
    · simp only [hsub so hns]
  · unfold setEndSelectionPosition
    rcases hns : narrowShort st.scrollOffset with _ | so
    · rfl
    · simp only [hsub so hns]

/-- Witness for C7: with scroll offset 1 and position row -32768 the
adjusted row is -32769, below SHORT_MIN, and both operations fail. -/
theorem beginExtend_overflow_witness :
    setSelectionAnchor exStC7 ⟨0, -32768⟩
      = Except.error SelectionError.arithmeticOverflow
    ∧ setEndSelectionPosition exStC7 ⟨0, -32768⟩
      = Except.error SelectionError.arithmeticOverflow :=
  beginExtend_overflow exStC7 ⟨0, -32768⟩ (by decide)

theorem getSelectionRects_inactive (st : TerminalState) (buf : TextBuffer)
    (vp : Viewport) (hinact : st.selectionActive = false) :
    getSelectionRects st buf vp = Except.ok [] := by
  unfold getSelectionRects
  rw [hinact]
  rfl

/-- Counterexample to C8 as stated: computeSelectedRows and extractText
are not total — on an active selection whose anchor row plus frozen
offset leaves the SHORT range, both fail with ArithmeticOverflow. -/
theorem inactive_queries_empty_counterexample :
    getSelectionRects cexStC8 exBufPlain exVpPlain
      = Except.error SelectionError.arithmeticOverflow
    ∧ retrieveSelectedTextFromBuffer cexStC8 exBufPlain exVpPlain true
      = Except.error SelectionError.arithmeticOverflow :=
  ⟨rfl, rfl⟩

/-- C8 (amended): setBoxMode, clear and isActive are total state
functions, and querying an inactive selection cannot fail and yields
empty results (no rows, empty string); but computeSelectedRows and
extractText on an active selection fail with ArithmeticOverflow when an
endpoint row plus its frozen offset leaves the coordinate range. -/
theorem inactive_queries_empty (st : TerminalState) (buf : TextBuffer)
    (vp : Viewport) (trimTrailingWhitespace : Bool)
    (hinact : st.selectionActive = false) :
    getSelectionRects st buf vp = Except.ok []
    ∧ retrieveSelectedTextFromBuffer st buf vp trimTrailingWhitespace
      = Except.ok "" := by
  have hg := getSelectionRects_inactive st buf vp hinact
  refine ⟨hg, ?_⟩
  unfold retrieveSelectedTextFromBuffer
  rw [hg]
  rfl

/-- Witness for C8 (amended): the inactive state yields no rows and the
empty string. -/
theorem inactive_queries_empty_witness :
    getSelectionRects exStInactive exBufPlain exVpPlain = Except.ok []
    ∧ retrieveSelectedTextFromBuffer exStInactive exBufPlain exVpPlain true
      = Except.ok "" :=
  inactive_queries_empty exStInactive exBufPlain exVpPlain true rfl

/-- C9: clear deactivates the selection, zeroes both endpoint
coordinates and both frozen row offsets, leaves box mode unchanged, and
is idempotent. -/
theorem clearSelection_spec (st : TerminalState) :
    (clearSelection st).selectionActive = false
    ∧ (clearSelection st).selectionAnchor = ⟨0, 0⟩
    ∧ (clearSelection st).endSelectionPosition = ⟨0, 0⟩
    ∧ (clearSelection st).selectionAnchor_YOffset = 0
    ∧ (clearSelection st).endSelectionPosition_YOffset = 0
    ∧ (clearSelection st).boxSelection = st.boxSelection
    ∧ clearSelection (clearSelection st) = clearSelection st :=
  ⟨rfl, rfl, rfl, rfl, rfl, rfl, rfl⟩

/-- C10: extend while inactive is legal and not an error: on success it
records the scroll-adjusted end position and the frozen row offset
exactly as it would with an active selection, leaves the selection
inactive, and a subsequent computeSelectedRows still returns no rows. -/
theorem extend_inactive_legal (st : TerminalState) (position : COORD)
    (st2 : TerminalState) (buf : TextBuffer) (vp : Viewport)
    (hinact : st.selectionActive = false)
    (h : setEndSelectionPosition st position = Except.ok st2) :
    st2.selectionActive = false
    ∧ st2.endSelectionPosition = ⟨position.X, position.Y - st.scrollOffset⟩
    ∧ st2.endSelectionPosition_YOffset = st.viewStartIndex
    ∧ getSelectionRects st2 buf vp = Except.ok []
    ∧ setEndSelectionPosition { st with selectionActive := true } position
      = Except.ok { st2 with selectionActive := true } := by
  unfold setEndSelectionPosition at h ⊢
  rcases hns : narrowShort st.scrollOffset with _ | so
  · rw [hns] at h
    exact Except.noConfusion h
  rw [hns] at h
  rcases hss : shortSub position.Y so with _ | y
  · simp only [hss] at h
    exact Except.noConfusion h
  rcases hnv : narrowShort st.viewStartIndex with _ | vsi
  · simp only [hss, hnv] at h
    exact Except.noConfusion h
  simp only [hss, hnv] at h
  obtain ⟨_, hso⟩ := narrowShort_eq_some _ _ hns
  obtain ⟨_, hy⟩ := shortSub_eq_some _ _ _ hss
  obtain ⟨_, hvsi⟩ := narrowShort_eq_some _ _ hnv
  injection h with hst2
  subst hst2
  refine ⟨hinact, ?_, ?_, ?_, ?_⟩
  · show (⟨position.X, y⟩ : COORD) = ⟨position.X, position.Y - st.scrollOffset⟩
    rw [hy, hso]
  · exact hvsi
  · exact getSelectionRects_inactive _ buf vp hinact
  · simp only [hss]

/-- Witness for C10: extending the inactive zero state to (4,5) records
the end position, stays inactive, and still yields no rows. -/
theorem extend_inactive_legal_witness :
    exStC10.selectionActive = false
    ∧ exStC10.endSelectionPosition = ⟨4, 5⟩
    ∧ exStC10.endSelectionPosition_YOffset = 0
    ∧ getSelectionRects exStC10 exBufPlain exVpPlain = Except.ok []
    ∧ setEndSelectionPosition { exStInactive with selectionActive := true } ⟨4, 5⟩
      = Except.ok { exStC10 with selectionActive := true } :=
  extend_inactive_legal exStInactive ⟨4, 5⟩ exStC10 exBufPlain exVpPlain rfl rfl
